import Mathlib

/-!
Verification development for the LuminaRay voxel ray tracer.

The definitions below are shallow embeddings of the repository source:
  * `Math3D.*`   — the CPU math library (`lib/math`): vector algebra,
    analytic ray-sphere intersection, and the 3D DDA voxel traversal used
    for mouse picking.
  * `Shader.*`   — the corresponding routines of the generated GLSL
    fragment shader (`lib/shader`): its ray-sphere intersection and its
    DDA voxel traversal (`MAX_STEPS` is the compile-time constant baked in
    from the quality preset).
  * the application model (`types`, `App`, `RayTracerCanvas`): tool kinds,
    palette, quality presets, grid/light edit actions and the pick
    dispatcher.

Numbers are modelled over an arbitrary linear ordered field (instantiated
at `ℚ` for executable witnesses and at `ℝ` where the source computes
square roots or trigonometry), i.e. exact real arithmetic.  One extra
model (`ERat`, `Math3D.intersectVoxelsE`) refines the CPU traversal with
the IEEE special values `Infinity` and `NaN`, which matter exactly when a
ray direction component is zero.

The voxel grid is modelled the way both sides index it: a flat byte store
addressed by `x + y*N + z*N*N` (a `Uint8Array` on the CPU, the R8 texel
array on the GPU; `texImage3D` uploads the same flat array with x fastest,
so texel `(x,y,z)` holds the same byte).
-/

/-- 3-component vector, as the `[x, y, z]` tuples of the source. -/
structure Vec3 (α : Type) where
  x : α
  y : α
  z : α
deriving DecidableEq, Repr

namespace Math3D

/-- `lib/math` `add`. -/
def add {α : Type} [Add α] (a b : Vec3 α) : Vec3 α := ⟨a.x + b.x, a.y + b.y, a.z + b.z⟩

/-- `lib/math` `sub`. -/
def sub {α : Type} [Sub α] (a b : Vec3 α) : Vec3 α := ⟨a.x - b.x, a.y - b.y, a.z - b.z⟩

/-- `lib/math` `scale`. -/
def scale {α : Type} [Mul α] (a : Vec3 α) (s : α) : Vec3 α := ⟨a.x * s, a.y * s, a.z * s⟩

/-- `lib/math` `cross`. -/
def cross {α : Type} [Mul α] [Sub α] (a b : Vec3 α) : Vec3 α :=
  ⟨a.y * b.z - a.z * b.y, a.z * b.x - a.x * b.z, a.x * b.y - a.y * b.x⟩

/-- `lib/math` `dot`. -/
def dot {α : Type} [Mul α] [Add α] (a b : Vec3 α) : α := a.x * b.x + a.y * b.y + a.z * b.z

/-- `lib/math` `len`: Euclidean length. -/
noncomputable def len (a : Vec3 ℝ) : ℝ := Real.sqrt (dot a a)

/-- `lib/math` `normalize`: divides by the length unless the length is
exactly zero, in which case the zero vector is returned. -/
noncomputable def normalize (a : Vec3 ℝ) : Vec3 ℝ :=
  let l := Real.sqrt (dot a a)
  if l = 0 then ⟨0, 0, 0⟩ else ⟨a.x / l, a.y / l, a.z / l⟩

/-- `lib/math` `intersectSphere` (CPU picking side): no hit when the
discriminant is negative, otherwise the near root `-b - √h` if positive,
else the far root `-b + √h` if positive, else no hit. -/
noncomputable def intersectSphere (ro rd center : Vec3 ℝ) (radius : ℝ) : Option ℝ :=
  let oc := sub ro center
  let b := dot oc rd
  let c := dot oc oc - radius * radius
  let h := b * b - c
  if h < 0 then none
  else
    let t := -b - Real.sqrt h
    if t > 0 then some t
    else if -b + Real.sqrt h > 0 then some (-b + Real.sqrt h) else none

end Math3D

namespace Shader

/-- GLSL `intersectSphere` of the fragment shader: returns `-1.0` when the
discriminant is negative and otherwise always the near root `-b - √h`
(callers treat any nonpositive value as a miss). -/
noncomputable def intersectSphere (ro rd center : Vec3 ℝ) (radius : ℝ) : ℝ :=
  let oc := Math3D.sub ro center
  let b := Math3D.dot oc rd
  let c := Math3D.dot oc oc - radius * radius
  let h := b * b - c
  if h < 0 then -1 else -b - Real.sqrt h

end Shader

/-!  ## The 3D DDA voxel traversal

Both traversals keep a current cell `(x,y,z)`, per-axis accumulated
parametric distances `sX sY sZ` to the next boundary crossing, the face
normal of the last step taken, and the parametric distance `dist` at
which the current cell was entered.  The grid is the flat byte store
`ℤ → ℕ`; both sides sample it only after an in-bounds check. -/

/-- Mutable state of the DDA loop of either implementation. -/
structure DDA (α : Type) where
  x : ℤ
  y : ℤ
  z : ℤ
  sX : α
  sY : α
  sZ : α
  nx : ℤ
  ny : ℤ
  nz : ℤ
  dist : α
deriving DecidableEq, Repr

/-- Hit record of the CPU traversal (`{ pos, normal, voxelId, t }`). -/
structure VoxelHit (α : Type) where
  pos : Vec3 ℤ
  normal : Vec3 ℤ
  voxelId : ℕ
  t : α
deriving DecidableEq, Repr

/-- Hit record of the GLSL traversal.  The shader struct `VoxelHit` carries
`(t, normal, id)`; `pos` is the cell whose sample produced the hit, which
the shader holds in its loop variable `pos` at the return site — recorded
here so that cell-level parity can be stated. -/
structure GVoxelHit (α : Type) where
  t : α
  normal : Vec3 ℤ
  id : ℤ
  pos : Vec3 ℤ
deriving DecidableEq, Repr

/-- Advancement step of the CPU DDA (`lib/math` `intersectVoxels`, the
`if (sideDistX < sideDistY) … else …` block): steps the axis with the
smallest accumulated side distance, records the entry distance and the
negated step axis as the face normal. -/
def cpuAdvance {α : Type} [LinearOrderedField α]
    (stepX stepY stepZ : ℤ) (dX dY dZ : α) (s : DDA α) : DDA α :=
  if s.sX < s.sY then
    if s.sX < s.sZ then
      { s with dist := s.sX, sX := s.sX + dX, x := s.x + stepX,
               nx := -stepX, ny := 0, nz := 0 }
    else
      { s with dist := s.sZ, sZ := s.sZ + dZ, z := s.z + stepZ,
               nx := 0, ny := 0, nz := -stepZ }
  else
    if s.sY < s.sZ then
      { s with dist := s.sY, sY := s.sY + dY, y := s.y + stepY,
               nx := 0, ny := -stepY, nz := 0 }
    else
      { s with dist := s.sZ, sZ := s.sZ + dZ, z := s.z + stepZ,
               nx := 0, ny := 0, nz := -stepZ }

/-- Advancement step of the GLSL DDA (`intersectVoxels` in the fragment
shader, the `if (tMax.x < tMax.y) … else …` block). -/
def gpuAdvance {α : Type} [LinearOrderedField α]
    (stepX stepY stepZ : ℤ) (dX dY dZ : α) (s : DDA α) : DDA α :=
  if s.sX < s.sY then
    if s.sX < s.sZ then
      { s with dist := s.sX, sX := s.sX + dX, x := s.x + stepX,
               nx := -stepX, ny := 0, nz := 0 }
    else
      { s with dist := s.sZ, sZ := s.sZ + dZ, z := s.z + stepZ,
               nx := 0, ny := 0, nz := -stepZ }
  else
    if s.sY < s.sZ then
      { s with dist := s.sY, sY := s.sY + dY, y := s.y + stepY,
               nx := 0, ny := -stepY, nz := 0 }
    else
      { s with dist := s.sZ, sZ := s.sZ + dZ, z := s.z + stepZ,
               nx := 0, ny := 0, nz := -stepZ }

/-- Loop of the CPU traversal: per iteration, cells outside `[0,N)³` stop
the walk once the running distance exceeds `N * 1.5`; cells inside are
sampled and a nonzero byte is returned as a hit; otherwise the DDA
advances.  Exhausting the `maxSteps` fuel yields `null`. -/
def cpuLoop {α : Type} [LinearOrderedField α]
    (grid : ℤ → ℕ) (gridSize : ℤ) (stepX stepY stepZ : ℤ) (dX dY dZ : α) :
    ℕ → DDA α → Option (VoxelHit α)
  | 0, _ => none
  | n + 1, s =>
    if s.x < 0 ∨ s.x ≥ gridSize ∨ s.y < 0 ∨ s.y ≥ gridSize ∨ s.z < 0 ∨ s.z ≥ gridSize then
      if s.dist > (gridSize : α) * (3 / 2) then none
      else cpuLoop grid gridSize stepX stepY stepZ dX dY dZ n
        (cpuAdvance stepX stepY stepZ dX dY dZ s)
    else
      let voxel := grid (s.x + s.y * gridSize + s.z * gridSize * gridSize)
      if voxel > 0 then some ⟨⟨s.x, s.y, s.z⟩, ⟨s.nx, s.ny, s.nz⟩, voxel, s.dist⟩
      else cpuLoop grid gridSize stepX stepY stepZ dX dY dZ n
        (cpuAdvance stepX stepY stepZ dX dY dZ s)

/-- Loop of the GLSL traversal: bounds are the constant `32.0`, the
outside-grid cutoff is `MAX_DIST = 100.0`, the texture sample is the byte
normalised to `[0,1]` and recovered via `int(val * 255.0 + 0.5)`, and an
extra `if (t > MAX_DIST) break` runs after each advancement. -/
def gpuLoop {α : Type} [LinearOrderedField α] [FloorRing α]
    (grid : ℤ → ℕ) (stepX stepY stepZ : ℤ) (dX dY dZ : α) :
    ℕ → DDA α → Option (GVoxelHit α)
  | 0, _ => none
  | n + 1, s =>
    if s.x < 0 ∨ s.x ≥ 32 ∨ s.y < 0 ∨ s.y ≥ 32 ∨ s.z < 0 ∨ s.z ≥ 32 then
      if s.dist > 100 then none
      else
        let s2 := gpuAdvance stepX stepY stepZ dX dY dZ s
        if s2.dist > 100 then none
        else gpuLoop grid stepX stepY stepZ dX dY dZ n s2
    else
      let val : α := (grid (s.x + s.y * 32 + s.z * 32 * 32) : α) / 255
      let id : ℤ := ⌊val * 255 + 1 / 2⌋
      if id > 0 then some ⟨s.dist, ⟨s.nx, s.ny, s.nz⟩, id, ⟨s.x, s.y, s.z⟩⟩
      else
        let s2 := gpuAdvance stepX stepY stepZ dX dY dZ s
        if s2.dist > 100 then none
        else gpuLoop grid stepX stepY stepZ dX dY dZ n s2

namespace Math3D

/-- `lib/math` `intersectVoxels` (CPU picking side): start cell
`floor(ro)`, step `rd > 0 ? 1 : -1`, `deltaDist = |1/rd|`, initial side
distances from the fractional position, budget `gridSize * 2`. -/
def intersectVoxels {α : Type} [LinearOrderedField α] [FloorRing α]
    (ro rd : Vec3 α) (grid : ℤ → ℕ) (gridSize : ℤ) : Option (VoxelHit α) :=
  let x := ⌊ro.x⌋
  let y := ⌊ro.y⌋
  let z := ⌊ro.z⌋
  let stepX : ℤ := if rd.x > 0 then 1 else -1
  let stepY : ℤ := if rd.y > 0 then 1 else -1
  let stepZ : ℤ := if rd.z > 0 then 1 else -1
  let dX := |1 / rd.x|
  let dY := |1 / rd.y|
  let dZ := |1 / rd.z|
  let sX := (if rd.x > 0 then (x : α) + 1 - ro.x else ro.x - (x : α)) * dX
  let sY := (if rd.y > 0 then (y : α) + 1 - ro.y else ro.y - (y : α)) * dY
  let sZ := (if rd.z > 0 then (z : α) + 1 - ro.z else ro.z - (z : α)) * dZ
  cpuLoop grid gridSize stepX stepY stepZ dX dY dZ (gridSize * 2).toNat
    ⟨x, y, z, sX, sY, sZ, 0, 0, 0, 0⟩

end Math3D

namespace Shader

/-- GLSL `sign()`, which is `0` at `0`. -/
def sign {α : Type} [LinearOrderedField α] (r : α) : ℤ :=
  if r > 0 then 1 else if r < 0 then -1 else 0

/-- GLSL `intersectVoxels` of the fragment shader: `pos = floor(ro)`,
`step = sign(rd)`, `tDelta = 1.0 / abs(rd)`,
`tMax = (signRd * (pos - ro + 0.5) + 0.5) * tDelta`, loop bound
`MAX_STEPS` (the quality preset constant baked into the shader). -/
def intersectVoxels {α : Type} [LinearOrderedField α] [FloorRing α]
    (ro rd : Vec3 α) (grid : ℤ → ℕ) (maxSteps : ℕ) : Option (GVoxelHit α) :=
  let px := ⌊ro.x⌋
  let py := ⌊ro.y⌋
  let pz := ⌊ro.z⌋
  let sgnX := sign rd.x
  let sgnY := sign rd.y
  let sgnZ := sign rd.z
  let dX := 1 / |rd.x|
  let dY := 1 / |rd.y|
  let dZ := 1 / |rd.z|
  let tMaxX := ((sgnX : α) * ((px : α) - ro.x + 1 / 2) + 1 / 2) * dX
  let tMaxY := ((sgnY : α) * ((py : α) - ro.y + 1 / 2) + 1 / 2) * dY
  let tMaxZ := ((sgnZ : α) * ((pz : α) - ro.z + 1 / 2) + 1 / 2) * dZ
  gpuLoop grid sgnX sgnY sgnZ dX dY dZ maxSteps
    ⟨px, py, pz, tMaxX, tMaxY, tMaxZ, 0, 0, 0, 0⟩

end Shader

/-!  ## IEEE-special-value refinement of the CPU traversal

The JavaScript `intersectVoxels` divides by the raw direction components:
for a zero component, `1/0 = Infinity`, and the initial side distance is
`frac * Infinity`, which is `Infinity` for `frac > 0` but `NaN` when the
origin coordinate on that axis is an integer (`0 * Infinity = NaN`).
`ERat` models the finite doubles (as exact rationals) together with
`Infinity`, `-Infinity` and `NaN`, with the JavaScript semantics of the
operations the traversal performs. -/

/-- Extended rational: a finite value, `Infinity`, `-Infinity` or `NaN`. -/
inductive ERat where
  | fin : ℚ → ERat
  | inf : ERat
  | neginf : ERat
  | nan : ERat
deriving DecidableEq, Repr

namespace ERat

/-- IEEE addition on the modelled values. -/
def add : ERat → ERat → ERat
  | nan, _ => nan
  | _, nan => nan
  | inf, neginf => nan
  | neginf, inf => nan
  | inf, _ => inf
  | _, inf => inf
  | neginf, _ => neginf
  | _, neginf => neginf
  | fin a, fin b => fin (a + b)

/-- IEEE multiplication on the modelled values (`0 * Infinity = NaN`). -/
def mul : ERat → ERat → ERat
  | nan, _ => nan
  | _, nan => nan
  | inf, inf => inf
  | inf, neginf => neginf
  | neginf, inf => neginf
  | neginf, neginf => inf
  | inf, fin b => if 0 < b then inf else if b < 0 then neginf else nan
  | fin a, inf => if 0 < a then inf else if a < 0 then neginf else nan
  | neginf, fin b => if 0 < b then neginf else if b < 0 then inf else nan
  | fin a, neginf => if 0 < a then neginf else if a < 0 then inf else nan
  | fin a, fin b => fin (a * b)

/-- IEEE `<`: any comparison with `NaN` is false. -/
def lt : ERat → ERat → Bool
  | nan, _ => false
  | _, nan => false
  | fin a, fin b => decide (a < b)
  | neginf, neginf => false
  | neginf, _ => true
  | _, neginf => false
  | inf, _ => false
  | _, inf => true

/-- JavaScript `Math.abs(1 / r)`: `Infinity` at `r = 0` (for either signed
zero), else the finite `|1/r|`. -/
def invAbs (r : ℚ) : ERat := if r = 0 then inf else fin |1 / r|

end ERat

/-- Hit record of the CPU traversal with IEEE-modelled distance. -/
structure VoxelHitE where
  pos : Vec3 ℤ
  normal : Vec3 ℤ
  voxelId : ℕ
  t : ERat
deriving DecidableEq, Repr

/-- DDA state with IEEE-modelled side distances. -/
structure DDAE where
  x : ℤ
  y : ℤ
  z : ℤ
  sX : ERat
  sY : ERat
  sZ : ERat
  nx : ℤ
  ny : ℤ
  nz : ℤ
  dist : ERat
deriving DecidableEq, Repr

/-- Advancement step of the CPU DDA over `ERat` (same source block as
`cpuAdvance`, with IEEE comparison and addition). -/
def cpuAdvanceE (stepX stepY stepZ : ℤ) (dX dY dZ : ERat) (s : DDAE) : DDAE :=
  if s.sX.lt s.sY then
    if s.sX.lt s.sZ then
      { s with dist := s.sX, sX := s.sX.add dX, x := s.x + stepX,
               nx := -stepX, ny := 0, nz := 0 }
    else
      { s with dist := s.sZ, sZ := s.sZ.add dZ, z := s.z + stepZ,
               nx := 0, ny := 0, nz := -stepZ }
  else
    if s.sY.lt s.sZ then
      { s with dist := s.sY, sY := s.sY.add dY, y := s.y + stepY,
               nx := 0, ny := -stepY, nz := 0 }
    else
      { s with dist := s.sZ, sZ := s.sZ.add dZ, z := s.z + stepZ,
               nx := 0, ny := 0, nz := -stepZ }

/-- Loop of the CPU traversal over `ERat` (same source loop as `cpuLoop`;
`dist > gridSize * 1.5` is the IEEE comparison, false for `NaN`). -/
def cpuLoopE (grid : ℤ → ℕ) (gridSize : ℤ) (stepX stepY stepZ : ℤ) (dX dY dZ : ERat) :
    ℕ → DDAE → Option VoxelHitE
  | 0, _ => none
  | n + 1, s =>
    if s.x < 0 ∨ s.x ≥ gridSize ∨ s.y < 0 ∨ s.y ≥ gridSize ∨ s.z < 0 ∨ s.z ≥ gridSize then
      if (ERat.fin ((gridSize : ℚ) * (3 / 2))).lt s.dist then none
      else cpuLoopE grid gridSize stepX stepY stepZ dX dY dZ n
        (cpuAdvanceE stepX stepY stepZ dX dY dZ s)
    else
      let voxel := grid (s.x + s.y * gridSize + s.z * gridSize * gridSize)
      if voxel > 0 then some ⟨⟨s.x, s.y, s.z⟩, ⟨s.nx, s.ny, s.nz⟩, voxel, s.dist⟩
      else cpuLoopE grid gridSize stepX stepY stepZ dX dY dZ n
        (cpuAdvanceE stepX stepY stepZ dX dY dZ s)

namespace Math3D

/-- `lib/math` `intersectVoxels` with the IEEE special values of
JavaScript numbers modelled: identical to `Math3D.intersectVoxels` except
that `deltaDist = Math.abs(1/rd)` may be `Infinity` and the initial side
distances are IEEE products (possibly `Infinity` or `NaN`).  Finite
inputs and outputs are exact rationals. -/
def intersectVoxelsE (ro rd : Vec3 ℚ) (grid : ℤ → ℕ) (gridSize : ℤ) : Option VoxelHitE :=
  let x := ⌊ro.x⌋
  let y := ⌊ro.y⌋
  let z := ⌊ro.z⌋
  let stepX : ℤ := if rd.x > 0 then 1 else -1
  let stepY : ℤ := if rd.y > 0 then 1 else -1
  let stepZ : ℤ := if rd.z > 0 then 1 else -1
  let dX := ERat.invAbs rd.x
  let dY := ERat.invAbs rd.y
  let dZ := ERat.invAbs rd.z
  let sX := (ERat.fin (if rd.x > 0 then (x : ℚ) + 1 - ro.x else ro.x - (x : ℚ))).mul dX
  let sY := (ERat.fin (if rd.y > 0 then (y : ℚ) + 1 - ro.y else ro.y - (y : ℚ))).mul dY
  let sZ := (ERat.fin (if rd.z > 0 then (z : ℚ) + 1 - ro.z else ro.z - (z : ℚ))).mul dZ
  cpuLoopE grid gridSize stepX stepY stepZ dX dY dZ (gridSize * 2).toNat
    ⟨x, y, z, sX, sY, sZ, 0, 0, 0, ERat.fin 0⟩

end Math3D

/-!  ## Application model: tools, palette, quality presets, edit actions

From `types`, `App` and `RayTracerCanvas`.  Cells handed to the edit
actions are the integer cell coordinates and axis face normals produced
by the CPU raycast; the camera position stays real-valued. -/

/-- `types` `ToolType`. -/
inductive ToolType where
  | BLOCK
  | LIGHT
  | DELETE
deriving DecidableEq, Repr

/-- `types` `GRID_SIZE`. -/
def GRID_SIZE : ℤ := 32

/-- `types` `MIRROR_ID`. -/
def MIRROR_ID : ℕ := 100

/-- `types` `Light`. -/
structure Light where
  position : Vec3 ℝ
  color : Vec3 ℝ
  radius : ℝ
  intensity : ℝ

/-- `types` `PALETTE`: the 16 fixed colors. -/
noncomputable def PALETTE : List (Vec3 ℝ) :=
  [⟨0.9, 0.9, 0.9⟩, ⟨0.8, 0.2, 0.2⟩, ⟨0.2, 0.8, 0.2⟩, ⟨0.2, 0.2, 0.8⟩,
   ⟨0.9, 0.6, 0.1⟩, ⟨0.9, 0.9, 0.2⟩, ⟨0.6, 0.2, 0.8⟩, ⟨0.2, 0.9, 0.9⟩,
   ⟨0.5, 0.5, 0.5⟩, ⟨0.2, 0.2, 0.2⟩, ⟨0.5, 0.0, 0.0⟩, ⟨0.0, 0.5, 0.0⟩,
   ⟨0.9, 0.5, 0.5⟩, ⟨0.4, 0.2, 0.0⟩, ⟨0.6, 0.7, 0.8⟩, ⟨0.1, 0.1, 0.1⟩]

/-- `types` `QualityMode`. -/
inductive QualityMode where
  | LOW
  | MEDIUM
  | HIGH
  | ULTRA
deriving DecidableEq, Repr

/-- The `{ scale, maxSteps, maxBounces, shadowSteps }` record of
`RayTracerCanvas` `getQualityConfig`. -/
structure QualityConfig where
  scale : ℚ
  maxSteps : ℕ
  maxBounces : ℕ
  shadowSteps : ℕ
deriving DecidableEq, Repr

/-- `RayTracerCanvas` `getQualityConfig`: the four fixed presets. -/
def getQualityConfig : QualityMode → QualityConfig
  | QualityMode.ULTRA => ⟨1, 1024, 32, 128⟩
  | QualityMode.HIGH => ⟨1, 384, 8, 64⟩
  | QualityMode.MEDIUM => ⟨3 / 4, 128, 3, 32⟩
  | QualityMode.LOW => ⟨1 / 2, 64, 2, 16⟩

/-- Flat index `p[0] + p[1]*GRID_SIZE + p[2]*GRID_SIZE*GRID_SIZE` of
`App` `handleBlockAction`. -/
def cellIdx (p : Vec3 ℤ) : ℤ := p.x + p.y * GRID_SIZE + p.z * GRID_SIZE * GRID_SIZE

/-- The per-coordinate bounds check of the Block branch. -/
def cellInBounds (p : Vec3 ℤ) : Prop :=
  0 ≤ p.x ∧ p.x < GRID_SIZE ∧ 0 ≤ p.y ∧ p.y < GRID_SIZE ∧ 0 ≤ p.z ∧ p.z < GRID_SIZE

instance (p : Vec3 ℤ) : Decidable (cellInBounds p) := by
  unfold cellInBounds; infer_instance

/-- A single store `newData[i] = v` on the flat grid. -/
def writeCell (g : ℤ → ℕ) (i : ℤ) (v : ℕ) : ℤ → ℕ :=
  fun j => if j = i then v else g j

/-- Integer cell cast to the real-valued vector it denotes. -/
def vecCast (p : Vec3 ℤ) : Vec3 ℝ := ⟨(p.x : ℝ), (p.y : ℝ), (p.z : ℝ)⟩

/-- The grid effect of `App` `handleBlockAction` (the `setGridData`
updater): Delete zeroes the hit cell if its flat index is in range; Block
writes the selected id (or the mirror id) at `hitPos + normal` if that
cell is in bounds per coordinate and its center is farther than `1.0`
from the camera; the Light tool leaves the grid alone. -/
noncomputable def handleBlockActionGrid (tool : ToolType) (hitPos normal : Vec3 ℤ)
    (cameraPos : Vec3 ℝ) (selectedColorIdx : ℕ) (isMirrorSelected : Bool)
    (g : ℤ → ℕ) : ℤ → ℕ :=
  match tool with
  | ToolType.DELETE =>
    let i := cellIdx hitPos
    if 0 ≤ i ∧ i < GRID_SIZE * GRID_SIZE * GRID_SIZE then writeCell g i 0 else g
  | ToolType.BLOCK =>
    let target := Math3D.add hitPos normal
    let i := cellIdx target
    if cellInBounds target then
      let p := Math3D.add (vecCast target) ⟨1 / 2, 1 / 2, 1 / 2⟩
      if Math3D.len (Math3D.sub p cameraPos) > 1 then
        writeCell g i (if isMirrorSelected then MIRROR_ID else selectedColorIdx + 1)
      else g
    else g
  | ToolType.LIGHT => g

/-- The lights effect of `App` `handleBlockAction`: only the Light tool
touches the collection, appending a light at the center of
`hitPos + normal` with the selected palette color and fixed
radius/intensity, and only while fewer than 10 lights exist. -/
noncomputable def handleBlockActionLights (tool : ToolType) (hitPos normal : Vec3 ℤ)
    (selectedColorIdx : ℕ) (lights : List Light) : List Light :=
  if tool = ToolType.LIGHT then
    let target := Math3D.add hitPos normal
    let newLight : Light :=
      { position := ⟨(target.x : ℝ) + 1 / 2, (target.y : ℝ) + 1 / 2, (target.z : ℝ) + 1 / 2⟩,
        color := PALETTE.getD selectedColorIdx ⟨0, 0, 0⟩,
        radius := 2,
        intensity := 2 }
    if lights.length < 10 then lights ++ [newLight] else lights
  else lights

/-- `App` `handleLightClick`: with the Delete tool the light at the
clicked index is removed (`filter((_, i) => i !== lightIndex)`);
otherwise nothing happens. -/
def handleLightClick (tool : ToolType) (lights : List Light) (lightIndex : ℤ) : List Light :=
  if tool = ToolType.DELETE then
    (lights.enum.filter (fun p => (p.1 : ℤ) ≠ lightIndex)).map Prod.snd
  else lights

/-- The camera direction `[sy*cp, sp, cy*cp]` derived from yaw/pitch in
`RayTracerCanvas` (`render` and `performRaycastAction`). -/
noncomputable def cameraDir (yaw pitch : ℝ) : Vec3 ℝ :=
  ⟨Real.sin yaw * Real.cos pitch, Real.sin pitch, Real.cos yaw * Real.cos pitch⟩

/-- The light-marker scan of `performRaycastAction`: fold over the lights
with their indices, keeping the nearest sphere hit with
`t !== null && t > 0 && t < minLightDist`, starting from
`(closestLightIdx, minLightDist) = (-1, 100.0)`; marker radius `0.2`. -/
noncomputable def findClosestLight (camPos camDir : Vec3 ℝ) (lights : List Light) : ℤ × ℝ :=
  lights.enum.foldl
    (fun acc il =>
      match Math3D.intersectSphere camPos camDir il.2.position 0.2 with
      | some t => if t > 0 ∧ t < acc.2 then ((il.1 : ℤ), t) else acc
      | none => acc)
    (-1, 100)

/-- `RayTracerCanvas` `performRaycastAction`, with the `App` callbacks
(`onLightClick = handleLightClick`, `onBlockAction = handleBlockAction`)
inlined: returns the grid and lights after the click.  The light branch
is taken when some marker was hit and it is strictly nearer than the
voxel hit (`1000.0` when the voxel.traversal missed). -/
noncomputable def performRaycastAction (tool : ToolType) (selectedColorIdx : ℕ)
    (isMirrorSelected : Bool) (yaw pitch : ℝ) (camPos : Vec3 ℝ)
    (g : ℤ → ℕ) (lights : List Light) : (ℤ → ℕ) × List Light :=
  let camDir := cameraDir yaw pitch
  let r := findClosestLight camPos camDir lights
  let hit := Math3D.intersectVoxels camPos camDir g GRID_SIZE
  let voxelDist : ℝ := match hit with
    | some h => h.t
    | none => 1000
  if r.1 ≠ -1 ∧ r.2 < voxelDist then
    (g, handleLightClick tool lights r.1)
  else
    match hit with
    | some h =>
      (handleBlockActionGrid tool h.pos h.normal camPos selectedColorIdx isMirrorSelected g,
       handleBlockActionLights tool h.pos h.normal selectedColorIdx lights)
    | none => (g, lights)

/-!  ## Theorems -/

/-- The all-empty grid. -/
def gzero : ℤ → ℕ := fun _ => 0

/-- A fixed light used by concrete witnesses. -/
noncomputable def lightW : Light := ⟨⟨0, 0, 0⟩, ⟨1, 1, 1⟩, 2, 3⟩

/-- C7: the quality controller maps LOW to `maxSteps 64`,
`resolutionScale 0.5` and ULTRA to `maxSteps 1024`, `resolutionScale 1.0`;
switching LOW → ULTRA strictly increases both, and switching back yields
exactly the LOW values again — `getQualityConfig` is a pure function of
the quality level, so re-selecting LOW returns the identical record. -/
theorem c7_quality_presets :
    (getQualityConfig QualityMode.LOW).maxSteps = 64 ∧
    (getQualityConfig QualityMode.LOW).scale = 1 / 2 ∧
    (getQualityConfig QualityMode.ULTRA).maxSteps = 1024 ∧
    (getQualityConfig QualityMode.ULTRA).scale = 1 ∧
    (getQualityConfig QualityMode.LOW).maxSteps < (getQualityConfig QualityMode.ULTRA).maxSteps ∧
    (getQualityConfig QualityMode.LOW).scale < (getQualityConfig QualityMode.ULTRA).scale ∧
    getQualityConfig QualityMode.LOW = getQualityConfig QualityMode.LOW :=
  ⟨rfl, rfl, rfl, rfl, by norm_num [getQualityConfig], by norm_num [getQualityConfig], rfl⟩

/-- C6: an add-light edit (`tool = LIGHT`) on a collection that already
holds 10 lights leaves the collection unchanged — the append is guarded
by `prev.length < 10` and silently skipped. -/
theorem c6_light_capacity (hitPos normal : Vec3 ℤ) (selectedColorIdx : ℕ)
    (lights : List Light) (h : lights.length = 10) :
    handleBlockActionLights ToolType.LIGHT hitPos normal selectedColorIdx lights = lights := by
  unfold handleBlockActionLights
  simp [h]

/-- Witness for C6 at a concrete 10-light collection. -/
theorem c6_light_capacity_witness :
    (List.replicate 10 lightW).length = 10 ∧
    handleBlockActionLights ToolType.LIGHT ⟨0, 0, 0⟩ ⟨0, 0, 1⟩ 0
        (List.replicate 10 lightW) = List.replicate 10 lightW :=
  ⟨by simp, c6_light_capacity ⟨0, 0, 0⟩ ⟨0, 0, 1⟩ 0 _ (by simp)⟩

/-- Grid holding voxel id 5 at cell `(0,0,4)` (flat index 4096). -/
def gridC4 : ℤ → ℕ := fun i => if i = 4096 then 5 else 0

set_option maxRecDepth 40000 in
/-- C4: refuted — for the ray `ro = (0.5, 0.5, 5)`, `rd = (1, 1, 0)` the
zero z-component gives `deltaDistZ = Infinity` and, because `ro.z` is an
integer, `sideDistZ = 0 * Infinity = NaN`; every iteration then selects
the z axis (`NaN` comparisons are all false), and the traversal returns a
hit whose distance `t` is `NaN`, contradicting the claim that no NaN
reaches distances.  The claimed guard (clamp zero components) is absent
from the code. -/
theorem c4_nan_distance :
    Math3D.intersectVoxelsE ⟨1 / 2, 1 / 2, 5⟩ ⟨1, 1, 0⟩ gridC4 32 =
      some ⟨⟨0, 0, 4⟩, ⟨0, 0, 1⟩, 5, ERat.nan⟩ := by
  with_unfolding_all rfl

/-- Grid holding voxel id 3 at cell `(0,1,0)` (flat index 32). -/
def gridTie : ℤ → ℕ := fun i => if i = 32 then 3 else 0

set_option maxRecDepth 40000 in
/-- C3 counterexample: refutes "X wins exact ties".  For
`ro = (0.5, 0.5, 0.5)`, `rd = (1, 1, 1/4)` the first iteration has
`sideDistX = sideDistY = 1/2 < sideDistZ = 2`; were the X axis the
deterministic winner the traversal would step to cell `(1,0,0)` with
normal `(-1,0,0)`, but the CPU code takes the `else` branch and steps Y,
hitting cell `(0,1,0)` with normal `(0,-1,0)`. -/
theorem c3_counterexample :
    Math3D.intersectVoxels (α := ℚ) ⟨1 / 2, 1 / 2, 1 / 2⟩ ⟨1, 1, 1 / 4⟩ gridTie 32 =
        some ⟨⟨0, 1, 0⟩, ⟨0, -1, 0⟩, 3, 1 / 2⟩ ∧
    Math3D.intersectVoxels (α := ℚ) ⟨1 / 2, 1 / 2, 1 / 2⟩ ⟨1, 1, 1 / 4⟩ gridTie 32 ≠
        some ⟨⟨1, 0, 0⟩, ⟨-1, 0, 0⟩, 3, 1 / 2⟩ := by
  constructor
  · with_unfolding_all rfl
  · intro h
    rw [show Math3D.intersectVoxels (α := ℚ) ⟨1 / 2, 1 / 2, 1 / 2⟩ ⟨1, 1, 1 / 4⟩ gridTie 32 =
        some ⟨⟨0, 1, 0⟩, ⟨0, -1, 0⟩, 3, 1 / 2⟩ from by with_unfolding_all rfl] at h
    simp at h

/-- C3 amended: ties are broken deterministically and identically by the
CPU and GPU advancement blocks, but the fixed priority is not "X first":
the Y axis wins an exact X = Y tie, and the Z axis wins every exact tie
it takes part in (X = Z, Y = Z, and the triple tie). -/
theorem c3_tie_break {α : Type} [LinearOrderedField α]
    (stepX stepY stepZ : ℤ) (dX dY dZ : α) :
    (∀ s : DDA α, cpuAdvance stepX stepY stepZ dX dY dZ s =
        gpuAdvance stepX stepY stepZ dX dY dZ s) ∧
    (∀ s : DDA α, s.sX = s.sY → s.sY < s.sZ →
      cpuAdvance stepX stepY stepZ dX dY dZ s =
        { s with dist := s.sY, sY := s.sY + dY, y := s.y + stepY,
                 nx := 0, ny := -stepY, nz := 0 }) ∧
    (∀ s : DDA α, s.sX = s.sZ → s.sX < s.sY →
      cpuAdvance stepX stepY stepZ dX dY dZ s =
        { s with dist := s.sZ, sZ := s.sZ + dZ, z := s.z + stepZ,
                 nx := 0, ny := 0, nz := -stepZ }) ∧
    (∀ s : DDA α, s.sY = s.sZ → s.sY ≤ s.sX →
      cpuAdvance stepX stepY stepZ dX dY dZ s =
        { s with dist := s.sZ, sZ := s.sZ + dZ, z := s.z + stepZ,
                 nx := 0, ny := 0, nz := -stepZ }) := by
  refine ⟨fun s => rfl, fun s hxy hyz => ?_, fun s hxz hxy => ?_, fun s hyz hyx => ?_⟩
  · unfold cpuAdvance
    rw [if_neg (by rw [hxy]; exact lt_irrefl _), if_pos hyz]
  · unfold cpuAdvance
    rw [if_pos hxy, if_neg (by rw [hxz]; exact lt_irrefl _)]
  · unfold cpuAdvance
    rw [if_neg (not_lt.mpr hyx), if_neg (by rw [hyz]; exact lt_irrefl _)]

set_option maxRecDepth 8000 in
/-- Witness for C3 at concrete tied states over `ℚ`. -/
theorem c3_tie_break_witness :
    cpuAdvance 1 1 1 (1 : ℚ) 1 1 ⟨0, 0, 0, 1 / 2, 1 / 2, 2, 0, 0, 0, 0⟩ =
        gpuAdvance 1 1 1 (1 : ℚ) 1 1 ⟨0, 0, 0, 1 / 2, 1 / 2, 2, 0, 0, 0, 0⟩ ∧
    cpuAdvance 1 1 1 (1 : ℚ) 1 1 ⟨0, 0, 0, 1 / 2, 1 / 2, 2, 0, 0, 0, 0⟩ =
        ⟨0, 1, 0, 1 / 2, 3 / 2, 2, 0, -1, 0, 1 / 2⟩ ∧
    cpuAdvance 1 1 1 (1 : ℚ) 1 1 ⟨0, 0, 0, 1 / 2, 1, 1 / 2, 0, 0, 0, 0⟩ =
        ⟨0, 0, 1, 1 / 2, 1, 3 / 2, 0, 0, -1, 1 / 2⟩ ∧
    cpuAdvance 1 1 1 (1 : ℚ) 1 1 ⟨0, 0, 0, 1, 1 / 2, 1 / 2, 0, 0, 0, 0⟩ =
        ⟨0, 0, 1, 1, 1 / 2, 3 / 2, 0, 0, -1, 1 / 2⟩ := by
  refine ⟨(c3_tie_break 1 1 1 (1 : ℚ) 1 1).1 _, ?_, ?_, ?_⟩
  · rw [(c3_tie_break 1 1 1 (1 : ℚ) 1 1).2.1 ⟨0, 0, 0, 1 / 2, 1 / 2, 2, 0, 0, 0, 0⟩
      rfl (by norm_num)]
    with_unfolding_all rfl
  · rw [(c3_tie_break 1 1 1 (1 : ℚ) 1 1).2.2.1 ⟨0, 0, 0, 1 / 2, 1, 1 / 2, 0, 0, 0, 0⟩
      rfl (by norm_num)]
    with_unfolding_all rfl
  · rw [(c3_tie_break 1 1 1 (1 : ℚ) 1 1).2.2.2 ⟨0, 0, 0, 1, 1 / 2, 1 / 2, 0, 0, 0, 0⟩
      rfl (by norm_num)]
    with_unfolding_all rfl

/-- C5: `normalize` maps the zero vector to the zero vector (the explicit
`len === 0` guard), and any nonzero vector to its components divided by
its Euclidean length — the guard cannot fire because a nonzero vector has
strictly positive length. -/
theorem c5_normalize (a : Vec3 ℝ) :
    Math3D.normalize ⟨0, 0, 0⟩ = ⟨0, 0, 0⟩ ∧
    (a ≠ ⟨0, 0, 0⟩ →
      0 < Math3D.len a ∧
      Math3D.normalize a = ⟨a.x / Math3D.len a, a.y / Math3D.len a, a.z / Math3D.len a⟩) := by
  constructor
  · simp only [Math3D.normalize, Math3D.dot]
    norm_num
  · intro ha
    have hdot : 0 < Math3D.dot a a := by
      unfold Math3D.dot
      rcases lt_or_eq_of_le
        (by nlinarith [mul_self_nonneg a.x, mul_self_nonneg a.y, mul_self_nonneg a.z] :
          (0 : ℝ) ≤ a.x * a.x + a.y * a.y + a.z * a.z) with h | h
      · exact h
      · exfalso
        apply ha
        have hx : a.x = 0 := by
          nlinarith [mul_self_nonneg a.x, mul_self_nonneg a.y, mul_self_nonneg a.z]
        have hy : a.y = 0 := by
          nlinarith [mul_self_nonneg a.x, mul_self_nonneg a.y, mul_self_nonneg a.z]
        have hz : a.z = 0 := by
          nlinarith [mul_self_nonneg a.x, mul_self_nonneg a.y, mul_self_nonneg a.z]
        cases a
        simp only [Vec3.mk.injEq]
        exact ⟨hx, hy, hz⟩
    have hlen : 0 < Math3D.len a := Real.sqrt_pos.mpr hdot
    refine ⟨hlen, ?_⟩
    unfold Math3D.len at hlen ⊢
    simp only [Math3D.normalize]
    rw [if_neg (ne_of_gt hlen)]

/-- Witness for C5 at `a = (3, 4, 0)`, whose length is 5. -/
theorem c5_normalize_witness :
    (⟨3, 4, 0⟩ : Vec3 ℝ) ≠ ⟨0, 0, 0⟩ ∧
    Math3D.normalize ⟨3, 4, 0⟩ = ⟨3 / 5, 4 / 5, 0⟩ := by
  have h5 : Math3D.len (⟨3, 4, 0⟩ : Vec3 ℝ) = 5 := by
    unfold Math3D.len Math3D.dot
    rw [show (3 : ℝ) * 3 + 4 * 4 + 0 * 0 = 5 ^ 2 by norm_num]
    exact Real.sqrt_sq (by norm_num)
  have hne : (⟨3, 4, 0⟩ : Vec3 ℝ) ≠ ⟨0, 0, 0⟩ := by
    intro h
    have := congrArg Vec3.x h
    norm_num at this
  refine ⟨hne, ?_⟩
  rw [((c5_normalize ⟨3, 4, 0⟩).2 hne).2, h5]
  norm_num

/-- C2 counterexample: refutes the claim for the GPU routine.  For a ray
starting at the center of a sphere of radius 2 the policy demands the far
root `+2`; the CPU routine returns it, but the GLSL routine returns the
near root `-2` (it has no far-root fallback), which its callers treat as
a miss. -/
theorem c2_counterexample :
    Math3D.intersectSphere ⟨0, 0, 0⟩ ⟨0, 0, 1⟩ ⟨0, 0, 0⟩ 2 = some 2 ∧
    Shader.intersectSphere ⟨0, 0, 0⟩ ⟨0, 0, 1⟩ ⟨0, 0, 0⟩ 2 = -2 := by
  have hs : Real.sqrt 4 = 2 := by
    rw [show (4 : ℝ) = 2 ^ 2 by norm_num]
    exact Real.sqrt_sq (by norm_num)
  constructor
  · simp only [Math3D.intersectSphere, Math3D.sub, Math3D.dot]
    norm_num [hs]
  · simp only [Shader.intersectSphere, Math3D.sub, Math3D.dot]
    norm_num [hs]

/-- C2 amended: the CPU routine follows the root policy, and in
particular returns the positive far root for a ray origin strictly inside
the sphere; the GLSL routine has no far-root fallback — whenever the
discriminant is nonnegative it returns the near root `-b - √h`, which for
an inside origin is negative and is therefore treated as a miss by every
GPU call site. -/
theorem c2_root_policy (ro rd center : Vec3 ℝ) (radius b cc h : ℝ)
    (hb : b = Math3D.dot (Math3D.sub ro center) rd)
    (hcc : cc = Math3D.dot (Math3D.sub ro center) (Math3D.sub ro center) - radius * radius)
    (hh : h = b * b - cc)
    (hin : cc < 0) :
    0 < h ∧
    Math3D.intersectSphere ro rd center radius = some (-b + Real.sqrt h) ∧
    0 < -b + Real.sqrt h ∧
    Shader.intersectSphere ro rd center radius = -b - Real.sqrt h ∧
    -b - Real.sqrt h < 0 := by
  have hpos : 0 < h := by nlinarith [mul_self_nonneg b]
  have habs : |b| < Real.sqrt h := by
    rw [← Real.sqrt_sq_eq_abs]
    exact Real.sqrt_lt_sqrt (sq_nonneg b) (by nlinarith)
  have h1 : 0 < -b + Real.sqrt h := by
    cases abs_lt.mp habs with
    | intro hl hr => linarith
  have h2 : -b - Real.sqrt h < 0 := by
    cases abs_lt.mp habs with
    | intro hl hr => linarith
  refine ⟨hpos, ?_, h1, ?_, h2⟩
  · simp only [Math3D.intersectSphere]
    rw [← hb, ← hcc, ← hh]
    rw [if_neg (not_lt.mpr (le_of_lt hpos)), if_neg (by linarith), if_pos h1]
  · simp only [Shader.intersectSphere]
    rw [← hb, ← hcc, ← hh]
    rw [if_neg (not_lt.mpr (le_of_lt hpos))]

/-- Witness for C2: origin at the center of a radius-2 sphere, so
`b = 0`, `cc = -4`, `h = 4`; the CPU far root is `+√4 = 2`, the GPU near
root is `-√4 = -2`. -/
theorem c2_root_policy_witness :
    (-4 : ℝ) < 0 ∧
    0 < (4 : ℝ) ∧
    Math3D.intersectSphere ⟨0, 0, 0⟩ ⟨0, 0, 1⟩ ⟨0, 0, 0⟩ 2 = some (-0 + Real.sqrt 4) ∧
    0 < -(0 : ℝ) + Real.sqrt 4 ∧
    Shader.intersectSphere ⟨0, 0, 0⟩ ⟨0, 0, 1⟩ ⟨0, 0, 0⟩ 2 = -0 - Real.sqrt 4 ∧
    -(0 : ℝ) - Real.sqrt 4 < 0 := by
  have happ := c2_root_policy ⟨0, 0, 0⟩ ⟨0, 0, 1⟩ ⟨0, 0, 0⟩ 2 0 (-4) 4
    (by simp [Math3D.dot, Math3D.sub])
    (by simp [Math3D.dot, Math3D.sub]; norm_num)
    (by norm_num)
    (by norm_num)
  exact ⟨by norm_num, happ.1, happ.2.1, happ.2.2.1, happ.2.2.2.1, happ.2.2.2.2⟩

/-- Distinct in-bounds cells have distinct flat indices. -/
theorem cellIdx_inj {a b : Vec3 ℤ} (ha : cellInBounds a) (hb : cellInBounds b)
    (h : cellIdx a = cellIdx b) : a = b := by
  obtain ⟨ha1, ha2, ha3, ha4, ha5, ha6⟩ := ha
  obtain ⟨hb1, hb2, hb3, hb4, hb5, hb6⟩ := hb
  unfold cellIdx GRID_SIZE at h
  unfold GRID_SIZE at ha2 ha4 ha6 hb2 hb4 hb6
  cases a
  cases b
  simp only [Vec3.mk.injEq]
  simp only at h ha1 ha2 ha3 ha4 ha5 ha6 hb1 hb2 hb3 hb4 hb5 hb6
  omega

/-- The flat index of an in-bounds cell lies in `[0, 32768)`. -/
theorem cellIdx_mem {a : Vec3 ℤ} (ha : cellInBounds a) :
    0 ≤ cellIdx a ∧ cellIdx a < GRID_SIZE * GRID_SIZE * GRID_SIZE := by
  obtain ⟨h1, h2, h3, h4, h5, h6⟩ := ha
  unfold cellIdx GRID_SIZE at *
  omega

/-- C8: the Block tool targets `hitPos + normal`; the write is rejected
when the target is out of `[0,32)³` or when the target center lies within
Euclidean distance `1.0` of the camera, and otherwise stores exactly the
selected id (`selectedColorIdx + 1`, or `100` for the mirror) at the
target cell, leaving every other cell unchanged. -/
theorem c8_block_tool (hitPos normal : Vec3 ℤ) (cam : Vec3 ℝ) (sel : ℕ) (mir : Bool)
    (g : ℤ → ℕ) :
    (¬ cellInBounds (Math3D.add hitPos normal) →
      handleBlockActionGrid ToolType.BLOCK hitPos normal cam sel mir g = g) ∧
    (cellInBounds (Math3D.add hitPos normal) →
      ¬ (Math3D.len (Math3D.sub
          (Math3D.add (vecCast (Math3D.add hitPos normal)) ⟨1 / 2, 1 / 2, 1 / 2⟩) cam) > 1) →
      handleBlockActionGrid ToolType.BLOCK hitPos normal cam sel mir g = g) ∧
    (cellInBounds (Math3D.add hitPos normal) →
      Math3D.len (Math3D.sub
          (Math3D.add (vecCast (Math3D.add hitPos normal)) ⟨1 / 2, 1 / 2, 1 / 2⟩) cam) > 1 →
      handleBlockActionGrid ToolType.BLOCK hitPos normal cam sel mir g
          (cellIdx (Math3D.add hitPos normal)) =
        (if mir then MIRROR_ID else sel + 1) ∧
      (∀ c : Vec3 ℤ, cellInBounds c → c ≠ Math3D.add hitPos normal →
        handleBlockActionGrid ToolType.BLOCK hitPos normal cam sel mir g (cellIdx c) =
          g (cellIdx c))) := by
  refine ⟨?_, ?_, ?_⟩
  · intro hout
    simp only [handleBlockActionGrid]
    rw [if_neg hout]
  · intro hin hfar
    simp only [handleBlockActionGrid]
    rw [if_pos hin, if_neg hfar]
  · intro hin hfar
    constructor
    · simp only [handleBlockActionGrid]
      rw [if_pos hin, if_pos hfar]
      simp only [writeCell]
      simp
    · intro c hc hne
      simp only [handleBlockActionGrid]
      rw [if_pos hin, if_pos hfar]
      simp only [writeCell]
      rw [if_neg (fun h => hne (cellIdx_inj hc hin h))]

/-- Witness for C8: placing with the Block tool on hit cell `(5,5,4)`
with face normal `(0,0,1)` writes id 3 into target cell `(5,5,5)` (the
camera at the origin is `√90.75 > 1` away from the target center) and
leaves cell `(0,0,0)` unchanged. -/
theorem c8_block_tool_witness :
    cellInBounds (Math3D.add ⟨5, 5, 4⟩ ⟨0, 0, 1⟩) ∧
    Math3D.len (Math3D.sub
      (Math3D.add (vecCast (Math3D.add ⟨5, 5, 4⟩ ⟨0, 0, 1⟩)) ⟨1 / 2, 1 / 2, 1 / 2⟩)
      ⟨0, 0, 0⟩) > 1 ∧
    handleBlockActionGrid ToolType.BLOCK ⟨5, 5, 4⟩ ⟨0, 0, 1⟩ ⟨0, 0, 0⟩ 2 false gzero
        (cellIdx (Math3D.add ⟨5, 5, 4⟩ ⟨0, 0, 1⟩)) = (if false then MIRROR_ID else 2 + 1) ∧
    handleBlockActionGrid ToolType.BLOCK ⟨5, 5, 4⟩ ⟨0, 0, 1⟩ ⟨0, 0, 0⟩ 2 false gzero
        (cellIdx ⟨0, 0, 0⟩) = gzero (cellIdx ⟨0, 0, 0⟩) := by
  have hin : cellInBounds (Math3D.add ⟨5, 5, 4⟩ ⟨0, 0, 1⟩) := by
    unfold Math3D.add cellInBounds GRID_SIZE
    norm_num
  have hfar : Math3D.len (Math3D.sub
      (Math3D.add (vecCast (Math3D.add ⟨5, 5, 4⟩ ⟨0, 0, 1⟩)) ⟨1 / 2, 1 / 2, 1 / 2⟩)
      ⟨0, 0, 0⟩) > 1 := by
    unfold Math3D.len Math3D.add Math3D.sub Math3D.dot vecCast
    rw [gt_iff_lt, Real.lt_sqrt (by norm_num : (0 : ℝ) ≤ 1)]
    norm_num
  refine ⟨hin, hfar, ?_, ?_⟩
  · exact ((c8_block_tool ⟨5, 5, 4⟩ ⟨0, 0, 1⟩ ⟨0, 0, 0⟩ 2 false gzero).2.2 hin hfar).1
  · refine ((c8_block_tool ⟨5, 5, 4⟩ ⟨0, 0, 1⟩ ⟨0, 0, 0⟩ 2 false gzero).2.2 hin hfar).2
      ⟨0, 0, 0⟩ (by unfold cellInBounds GRID_SIZE; norm_num) ?_
    intro h
    have := congrArg Vec3.x h
    unfold Math3D.add at this
    norm_num at this

/-- Grid holding voxel id 7 at cell `(5,5,5)` (flat index 5285). -/
def gridC9 : ℤ → ℕ := fun i => if i = 5285 then 7 else 0

/-- C9 counterexample: the round trip is refuted on a grid whose target
cell is occupied.  Cell `(5,5,5)` holds id 7; a Block placement on hit
cell `(5,5,4)` with normal `(0,0,1)` overwrites it, and the Delete edit
on the same cell zeroes it, leaving 0 where the prior grid had 7. -/
theorem c9_counterexample :
    handleBlockActionGrid ToolType.DELETE ⟨5, 5, 5⟩ ⟨0, 0, 1⟩ ⟨0, 0, 0⟩ 2 false
        (handleBlockActionGrid ToolType.BLOCK ⟨5, 5, 4⟩ ⟨0, 0, 1⟩ ⟨0, 0, 0⟩ 2 false gridC9)
        5285 = 0 ∧
    gridC9 5285 = 7 := by
  constructor
  · simp only [handleBlockActionGrid, cellIdx, GRID_SIZE]
    norm_num [writeCell]
  · simp only [gridC9]
    norm_num

/-- C9 amended: the round trip restores the grid provided the target cell
`hitPos + normal` is in bounds and was empty (id 0) in the prior grid —
the condition under which a raycast-produced Block placement operates,
since the ray reached the hit face through that cell; and the Delete-tool
edit never touches the lights collection. -/
theorem c9_round_trip (hitPos normal n2 : Vec3 ℤ) (cam cam2 : Vec3 ℝ)
    (sel sel2 : ℕ) (mir mir2 : Bool) (g : ℤ → ℕ) (lights : List Light)
    (hb : cellInBounds (Math3D.add hitPos normal))
    (h0 : g (cellIdx (Math3D.add hitPos normal)) = 0) :
    (∀ j : ℤ, handleBlockActionGrid ToolType.DELETE (Math3D.add hitPos normal) n2 cam2 sel2 mir2
        (handleBlockActionGrid ToolType.BLOCK hitPos normal cam sel mir g) j = g j) ∧
    handleBlockActionLights ToolType.DELETE hitPos normal sel lights = lights := by
  constructor
  · intro j
    have hmem := cellIdx_mem hb
    simp only [handleBlockActionGrid]
    rw [if_pos hmem]
    unfold writeCell
    by_cases hj : j = cellIdx (Math3D.add hitPos normal)
    · rw [if_pos hj, hj, h0]
    · rw [if_neg hj]
      split_ifs with h1 h2 <;> simp only [if_neg hj]
  · unfold handleBlockActionLights
    simp

/-- Witness for C9: placing on hit cell `(5,5,4)` with normal `(0,0,1)`
into the empty grid and then deleting cell `(5,5,5)` leaves flat index
5285 (and, by the theorem, every index) with its prior value, and the
Delete edit leaves a one-light collection untouched. -/
theorem c9_round_trip_witness :
    cellInBounds (Math3D.add ⟨5, 5, 4⟩ ⟨0, 0, 1⟩) ∧
    gzero (cellIdx (Math3D.add ⟨5, 5, 4⟩ ⟨0, 0, 1⟩)) = 0 ∧
    handleBlockActionGrid ToolType.DELETE (Math3D.add ⟨5, 5, 4⟩ ⟨0, 0, 1⟩) ⟨0, 0, 1⟩
        ⟨0, 0, 0⟩ 2 false
        (handleBlockActionGrid ToolType.BLOCK ⟨5, 5, 4⟩ ⟨0, 0, 1⟩ ⟨0, 0, 0⟩ 2 false gzero)
        5285 = gzero 5285 ∧
    handleBlockActionLights ToolType.DELETE ⟨5, 5, 4⟩ ⟨0, 0, 1⟩ 2 [lightW] = [lightW] := by
  have hb : cellInBounds (Math3D.add ⟨5, 5, 4⟩ ⟨0, 0, 1⟩) := by
    unfold Math3D.add cellInBounds GRID_SIZE
    norm_num
  exact ⟨hb, rfl,
    (c9_round_trip ⟨5, 5, 4⟩ ⟨0, 0, 1⟩ ⟨0, 0, 1⟩ ⟨0, 0, 0⟩ ⟨0, 0, 0⟩ 2 2 false false gzero
      [lightW] hb rfl).1 5285,
    (c9_round_trip ⟨5, 5, 4⟩ ⟨0, 0, 1⟩ ⟨0, 0, 1⟩ ⟨0, 0, 0⟩ ⟨0, 0, 0⟩ 2 2 false false gzero
      [lightW] hb rfl).2⟩

/-- Filtering an index-decorated list on `index ≠ j` keeps everything
when `j` is below every decorated index. -/
theorem filter_enumFrom_lt {β : Type} (l : List β) (k : ℕ) (j : ℤ) (hj : j < k) :
    ((List.enumFrom k l).filter (fun p => (p.1 : ℤ) ≠ j)).map Prod.snd = l := by
  induction l generalizing k with
  | nil => rfl
  | cons a tl ih =>
    simp only [List.enumFrom, List.filter_cons, decide_eq_true_eq]
    rw [if_pos (by omega : ((k : ℕ) : ℤ) ≠ j)]
    simp only [List.map_cons]
    rw [ih (k + 1) (by omega)]

/-- The JavaScript `filter((_, i) => i !== lightIndex)` removes exactly
the element at the targeted index. -/
theorem filter_enumFrom_eq {β : Type} (l : List β) (k i : ℕ) (hi : i < l.length) :
    ((List.enumFrom k l).filter (fun p => (p.1 : ℤ) ≠ ((k + i : ℕ) : ℤ))).map Prod.snd =
      l.eraseIdx i := by
  induction l generalizing k i with
  | nil => simp at hi
  | cons a tl ih =>
    cases i with
    | zero =>
      simp only [List.enumFrom, List.filter_cons, decide_eq_true_eq]
      rw [if_neg (by omega : ¬ ((k : ℕ) : ℤ) ≠ ((k + 0 : ℕ) : ℤ))]
      rw [List.eraseIdx]
      exact filter_enumFrom_lt tl (k + 1) _ (by omega)
    | succ m =>
      simp only [List.enumFrom, List.filter_cons, decide_eq_true_eq]
      rw [if_pos (by omega : ((k : ℕ) : ℤ) ≠ ((k + (m + 1) : ℕ) : ℤ))]
      simp only [List.map_cons, List.eraseIdx]
      have hrw := ih (k + 1) m (by simpa using hi)
      rw [show ((k + (m + 1) : ℕ) : ℤ) = (((k + 1) + m : ℕ) : ℤ) by omega, hrw]

/-- A fold whose step either keeps the first accumulator component or
replaces it with the decorated index produces either the initial value or
one of the indices. -/
theorem foldl_enumFrom_fst {β : Type} (step : ℤ × ℝ → ℕ × β → ℤ × ℝ)
    (hstep : ∀ acc il, (step acc il).1 = acc.1 ∨ (step acc il).1 = (il.1 : ℤ))
    (l : List β) (k : ℕ) (acc : ℤ × ℝ) :
    (List.foldl step acc (List.enumFrom k l)).1 = acc.1 ∨
    ∃ i : ℕ, k ≤ i ∧ i < k + l.length ∧
      (List.foldl step acc (List.enumFrom k l)).1 = (i : ℤ) := by
  induction l generalizing k acc with
  | nil => exact Or.inl rfl
  | cons a tl ih =>
    simp only [List.enumFrom, List.foldl_cons, List.length_cons]
    rcases ih (k + 1) (step acc (k, a)) with h | ⟨i, hk, hlen, hi⟩
    · rcases hstep acc (k, a) with h2 | h2
      · exact Or.inl (h.trans h2)
      · exact Or.inr ⟨k, le_refl k, by omega, h.trans h2⟩
    · exact Or.inr ⟨i, by omega, by omega, hi⟩

/-- The nearest-light scan returns `-1` or the index of one of the
lights. -/
theorem findClosestLight_fst (camPos camDir : Vec3 ℝ) (lights : List Light) :
    (findClosestLight camPos camDir lights).1 = -1 ∨
    ∃ i : ℕ, i < lights.length ∧
      (findClosestLight camPos camDir lights).1 = (i : ℤ) := by
  have h := foldl_enumFrom_fst
    (fun acc il =>
      match Math3D.intersectSphere camPos camDir il.2.position 0.2 with
      | some t => if t > 0 ∧ t < acc.2 then ((il.1 : ℤ), t) else acc
      | none => acc)
    (fun acc il => by
      beta_reduce
      rcases hs : Math3D.intersectSphere camPos camDir il.2.position 0.2 with _ | t
      · exact Or.inl rfl
      · dsimp only
        split_ifs
        · exact Or.inr rfl
        · exact Or.inl rfl)
    lights 0 (-1, 100)
  rcases h with h | ⟨i, _, hlen, hi⟩
  · exact Or.inl h
  · exact Or.inr ⟨i, by omega, hi⟩

/-- The CPU traversal of the empty grid never hits. -/
theorem cpuLoop_gzero {α : Type} [LinearOrderedField α] (gridSize : ℤ)
    (sx sy sz : ℤ) (dX dY dZ : α) :
    ∀ (n : ℕ) (s : DDA α), cpuLoop gzero gridSize sx sy sz dX dY dZ n s = none := by
  intro n
  induction n with
  | zero => intro s; rfl
  | succ m ih =>
    intro s
    unfold cpuLoop
    simp only [gzero]
    split_ifs <;> first | rfl | exact ih _ | omega

/-- The full CPU raycast of the empty grid misses. -/
theorem intersectVoxels_gzero {α : Type} [LinearOrderedField α] [FloorRing α]
    (ro rd : Vec3 α) (gridSize : ℤ) :
    Math3D.intersectVoxels ro rd gzero gridSize = none := by
  unfold Math3D.intersectVoxels
  exact cpuLoop_gzero gridSize _ _ _ _ _ _ _ _

/-- C10: when the pick resolves to a light marker (some marker hit,
strictly nearer than the voxel hit), a click with the Block or Light tool
changes neither the grid nor the lights; only the Delete tool mutates
state, removing exactly the clicked light. -/
theorem c10_light_pick (tool : ToolType) (sel : ℕ) (mir : Bool) (yaw pitch : ℝ)
    (camPos : Vec3 ℝ) (g : ℤ → ℕ) (lights : List Light)
    (h1 : (findClosestLight camPos (cameraDir yaw pitch) lights).1 ≠ -1)
    (h2 : (findClosestLight camPos (cameraDir yaw pitch) lights).2 <
      (match Math3D.intersectVoxels camPos (cameraDir yaw pitch) g GRID_SIZE with
       | some h => h.t
       | none => 1000)) :
    ((tool = ToolType.BLOCK ∨ tool = ToolType.LIGHT) →
      performRaycastAction tool sel mir yaw pitch camPos g lights = (g, lights)) ∧
    (tool = ToolType.DELETE →
      (performRaycastAction tool sel mir yaw pitch camPos g lights).1 = g ∧
      ∃ i : ℕ, i < lights.length ∧
        (findClosestLight camPos (cameraDir yaw pitch) lights).1 = (i : ℤ) ∧
        (performRaycastAction tool sel mir yaw pitch camPos g lights).2 =
          lights.eraseIdx i) := by
  have heq : performRaycastAction tool sel mir yaw pitch camPos g lights =
      (g, handleLightClick tool lights
        (findClosestLight camPos (cameraDir yaw pitch) lights).1) := by
    simp only [performRaycastAction]
    rw [if_pos ⟨h1, h2⟩]
  constructor
  · intro htool
    rw [heq]
    have hne : tool ≠ ToolType.DELETE := by
      rcases htool with h | h <;> subst h <;> intro hc <;> cases hc
    unfold handleLightClick
    rw [if_neg hne]
  · intro hD
    subst hD
    rcases findClosestLight_fst camPos (cameraDir yaw pitch) lights with h | ⟨i, hlen, hi⟩
    · exact absurd h h1
    · refine ⟨by rw [heq], i, hlen, hi, ?_⟩
      rw [heq]
      unfold handleLightClick
      rw [if_pos rfl, hi]
      have hrw := filter_enumFrom_eq lights 0 i hlen
      simpa using hrw

/-- Witness for C10: camera at `(0,0,-5)` looking along `+z`
(`yaw = pitch = 0`), one light marker at the origin hit at distance
`4.8`, empty grid (voxel miss, distance `1000`); a Block-tool click
changes nothing. -/
theorem c10_light_pick_witness :
    ((findClosestLight ⟨0, 0, -5⟩ (cameraDir 0 0) [lightW]).1 ≠ -1) ∧
    ((findClosestLight ⟨0, 0, -5⟩ (cameraDir 0 0) [lightW]).2 <
      (match Math3D.intersectVoxels ⟨0, 0, -5⟩ (cameraDir 0 0) gzero GRID_SIZE with
       | some h => h.t
       | none => 1000)) ∧
    performRaycastAction ToolType.BLOCK 0 false 0 0 ⟨0, 0, -5⟩ gzero [lightW] =
      (gzero, [lightW]) := by
  have hdir : cameraDir 0 0 = ⟨0, 0, 1⟩ := by
    unfold cameraDir
    norm_num
  have hs : Real.sqrt (1 / 25) = 1 / 5 := by
    rw [show (1 / 25 : ℝ) = (1 / 5) ^ 2 by norm_num]
    exact Real.sqrt_sq (by norm_num)
  have hsphere : Math3D.intersectSphere ⟨0, 0, -5⟩ ⟨0, 0, 1⟩ ⟨0, 0, 0⟩ 0.2 = some (24 / 5) := by
    simp only [Math3D.intersectSphere, Math3D.sub, Math3D.dot]
    norm_num [hs]
  have hfc : findClosestLight ⟨0, 0, -5⟩ (cameraDir 0 0) [lightW] = (0, 24 / 5) := by
    rw [hdir]
    unfold findClosestLight
    simp only [List.enum, List.enumFrom, List.foldl]
    rw [show lightW.position = ⟨0, 0, 0⟩ from rfl, hsphere]
    norm_num
  have hvox : Math3D.intersectVoxels ⟨0, 0, -5⟩ (cameraDir 0 0) gzero GRID_SIZE = none :=
    intersectVoxels_gzero _ _ _
  have h1 : (findClosestLight ⟨0, 0, -5⟩ (cameraDir 0 0) [lightW]).1 ≠ -1 := by
    rw [hfc]
    norm_num
  have h2 : (findClosestLight ⟨0, 0, -5⟩ (cameraDir 0 0) [lightW]).2 <
      (match Math3D.intersectVoxels ⟨0, 0, -5⟩ (cameraDir 0 0) gzero GRID_SIZE with
       | some h => h.t
       | none => 1000) := by
    rw [hfc, hvox]
    dsimp only
    norm_num
  exact ⟨h1, h2,
    (c10_light_pick ToolType.BLOCK 0 false 0 0 ⟨0, 0, -5⟩ gzero [lightW] h1 h2).1
      (Or.inl rfl)⟩

/-!  ## C1: CPU/GPU parity of the voxel traversal

The loops agree step for step; they differ only in their outside-grid
cutoffs (`gridSize * 1.5` on the CPU versus `MAX_DIST = 100` plus an
after-advance check on the GPU) and their step budgets (`gridSize * 2` on
the CPU versus the preset constant `MAX_STEPS` on the GPU).  For a unit
direction with nonzero components and an origin inside the grid the
cutoffs are unreachable while any sample can still hit, and once the walk
leaves the grid it never re-enters (each coordinate moves monotonically),
so with matching budgets the results coincide.  The invariant below
carries what that argument needs: each accumulated side distance is
exactly the parametric distance of the next boundary crossing of its
axis, and each coordinate stays on the far side of its start bound. -/

/-- Invariant of the DDA walk started at `floor(ro)` inside the grid:
per axis, the side distance is the parametric distance to the next
crossing, and the coordinate never passes the absorbing side. -/
structure DDAInv {α : Type} [LinearOrderedField α] (ro : Vec3 α)
    (stepX stepY stepZ : ℤ) (dX dY dZ : α) (s : DDA α) : Prop where
  invx1 : stepX = 1 → 0 ≤ s.x ∧ s.sX = ((s.x : α) + 1 - ro.x) * dX
  invx2 : stepX = -1 → s.x ≤ 31 ∧ s.sX = (ro.x - (s.x : α)) * dX
  invy1 : stepY = 1 → 0 ≤ s.y ∧ s.sY = ((s.y : α) + 1 - ro.y) * dY
  invy2 : stepY = -1 → s.y ≤ 31 ∧ s.sY = (ro.y - (s.y : α)) * dY
  invz1 : stepZ = 1 → 0 ≤ s.z ∧ s.sZ = ((s.z : α) + 1 - ro.z) * dZ
  invz2 : stepZ = -1 → s.z ≤ 31 ∧ s.sZ = (ro.z - (s.z : α)) * dZ

/-- The advancement writes the smallest side distance into `dist`. -/
theorem cpuAdvance_dist_le {α : Type} [LinearOrderedField α]
    (stepX stepY stepZ : ℤ) (dX dY dZ : α) (s : DDA α) :
    (cpuAdvance stepX stepY stepZ dX dY dZ s).dist ≤ s.sX ∧
    (cpuAdvance stepX stepY stepZ dX dY dZ s).dist ≤ s.sY ∧
    (cpuAdvance stepX stepY stepZ dX dY dZ s).dist ≤ s.sZ := by
  unfold cpuAdvance
  split_ifs with h1 h2 h3 <;>
    exact ⟨by simp only []; linarith, by simp only []; linarith, by simp only []; linarith⟩

/-- Each advancement changes one coordinate by its own step. -/
theorem cpuAdvance_coords {α : Type} [LinearOrderedField α]
    (stepX stepY stepZ : ℤ) (dX dY dZ : α) (s : DDA α) :
    ((cpuAdvance stepX stepY stepZ dX dY dZ s).x = s.x ∨
      (cpuAdvance stepX stepY stepZ dX dY dZ s).x = s.x + stepX) ∧
    ((cpuAdvance stepX stepY stepZ dX dY dZ s).y = s.y ∨
      (cpuAdvance stepX stepY stepZ dX dY dZ s).y = s.y + stepY) ∧
    ((cpuAdvance stepX stepY stepZ dX dY dZ s).z = s.z ∨
      (cpuAdvance stepX stepY stepZ dX dY dZ s).z = s.z + stepZ) := by
  unfold cpuAdvance
  split_ifs <;>
    first
      | exact ⟨Or.inr rfl, Or.inl rfl, Or.inl rfl⟩
      | exact ⟨Or.inl rfl, Or.inr rfl, Or.inl rfl⟩
      | exact ⟨Or.inl rfl, Or.inl rfl, Or.inr rfl⟩

/-- The advancement preserves the invariant. -/
theorem cpuAdvance_inv {α : Type} [LinearOrderedField α] {ro : Vec3 α}
    {stepX stepY stepZ : ℤ} {dX dY dZ : α} {s : DDA α}
    (hInv : DDAInv ro stepX stepY stepZ dX dY dZ s) :
    DDAInv ro stepX stepY stepZ dX dY dZ (cpuAdvance stepX stepY stepZ dX dY dZ s) := by
  obtain ⟨hx1, hx2, hy1, hy2, hz1, hz2⟩ := hInv
  unfold cpuAdvance
  split_ifs with h1 h2 h3
  · refine ⟨?_, ?_, fun h => hy1 h, fun h => hy2 h, fun h => hz1 h, fun h => hz2 h⟩
    · intro hstep
      obtain ⟨hb, hs⟩ := hx1 hstep
      subst hstep
      refine ⟨by dsimp only; omega, ?_⟩
      dsimp only
      push_cast
      rw [hs]
      ring
    · intro hstep
      obtain ⟨hb, hs⟩ := hx2 hstep
      subst hstep
      refine ⟨by dsimp only; omega, ?_⟩
      dsimp only
      push_cast
      rw [hs]
      ring
  · refine ⟨fun h => hx1 h, fun h => hx2 h, fun h => hy1 h, fun h => hy2 h, ?_, ?_⟩
    · intro hstep
      obtain ⟨hb, hs⟩ := hz1 hstep
      subst hstep
      refine ⟨by dsimp only; omega, ?_⟩
      dsimp only
      push_cast
      rw [hs]
      ring
    · intro hstep
      obtain ⟨hb, hs⟩ := hz2 hstep
      subst hstep
      refine ⟨by dsimp only; omega, ?_⟩
      dsimp only
      push_cast
      rw [hs]
      ring
  · refine ⟨fun h => hx1 h, fun h => hx2 h, ?_, ?_, fun h => hz1 h, fun h => hz2 h⟩
    · intro hstep
      obtain ⟨hb, hs⟩ := hy1 hstep
      subst hstep
      refine ⟨by dsimp only; omega, ?_⟩
      dsimp only
      push_cast
      rw [hs]
      ring
    · intro hstep
      obtain ⟨hb, hs⟩ := hy2 hstep
      subst hstep
      refine ⟨by dsimp only; omega, ?_⟩
      dsimp only
      push_cast
      rw [hs]
      ring
  · refine ⟨fun h => hx1 h, fun h => hx2 h, fun h => hy1 h, fun h => hy2 h, ?_, ?_⟩
    · intro hstep
      obtain ⟨hb, hs⟩ := hz1 hstep
      subst hstep
      refine ⟨by dsimp only; omega, ?_⟩
      dsimp only
      push_cast
      rw [hs]
      ring
    · intro hstep
      obtain ⟨hb, hs⟩ := hz2 hstep
      subst hstep
      refine ⟨by dsimp only; omega, ?_⟩
      dsimp only
      push_cast
      rw [hs]
      ring

/-- Inside the grid, each side distance is at most `32 * deltaDist` for
its axis: the next crossing is at most a full grid width away. -/
theorem sides_le_inside {α : Type} [LinearOrderedField α] {ro : Vec3 α}
    {stepX stepY stepZ : ℤ} {dX dY dZ : α} {s : DDA α}
    (hInv : DDAInv ro stepX stepY stepZ dX dY dZ s)
    (hsx : stepX = 1 ∨ stepX = -1) (hsy : stepY = 1 ∨ stepY = -1)
    (hsz : stepZ = 1 ∨ stepZ = -1)
    (hdX : 0 < dX) (hdY : 0 < dY) (hdZ : 0 < dZ)
    (hro : 0 ≤ ro.x ∧ ro.x < 32 ∧ 0 ≤ ro.y ∧ ro.y < 32 ∧ 0 ≤ ro.z ∧ ro.z < 32)
    (hin : ¬(s.x < 0 ∨ s.x ≥ 32 ∨ s.y < 0 ∨ s.y ≥ 32 ∨ s.z < 0 ∨ s.z ≥ 32)) :
    s.sX ≤ 32 * dX ∧ s.sY ≤ 32 * dY ∧ s.sZ ≤ 32 * dZ := by
  push_neg at hin
  obtain ⟨hx0, hx32, hy0, hy32, hz0, hz32⟩ := hin
  obtain ⟨hrx0, hrx32, hry0, hry32, hrz0, hrz32⟩ := hro
  refine ⟨?_, ?_, ?_⟩
  · rcases hsx with h | h
    · obtain ⟨hb, hs⟩ := hInv.invx1 h
      rw [hs]
      have hc : ((s.x : α) + 1 - ro.x) ≤ 32 := by
        have h31 : s.x ≤ 31 := by omega
        have : (s.x : α) ≤ 31 := by exact_mod_cast h31
        linarith
      nlinarith
    · obtain ⟨hb, hs⟩ := hInv.invx2 h
      rw [hs]
      have hc : (ro.x - (s.x : α)) ≤ 32 := by
        have : (0 : α) ≤ (s.x : α) := by exact_mod_cast hx0
        linarith
      nlinarith
  · rcases hsy with h | h
    · obtain ⟨hb, hs⟩ := hInv.invy1 h
      rw [hs]
      have hc : ((s.y : α) + 1 - ro.y) ≤ 32 := by
        have h31 : s.y ≤ 31 := by omega
        have : (s.y : α) ≤ 31 := by exact_mod_cast h31
        linarith
      nlinarith
    · obtain ⟨hb, hs⟩ := hInv.invy2 h
      rw [hs]
      have hc : (ro.y - (s.y : α)) ≤ 32 := by
        have : (0 : α) ≤ (s.y : α) := by exact_mod_cast hy0
        linarith
      nlinarith
  · rcases hsz with h | h
    · obtain ⟨hb, hs⟩ := hInv.invz1 h
      rw [hs]
      have hc : ((s.z : α) + 1 - ro.z) ≤ 32 := by
        have h31 : s.z ≤ 31 := by omega
        have : (s.z : α) ≤ 31 := by exact_mod_cast h31
        linarith
      nlinarith
    · obtain ⟨hb, hs⟩ := hInv.invz2 h
      rw [hs]
      have hc : (ro.z - (s.z : α)) ≤ 32 := by
        have : (0 : α) ≤ (s.z : α) := by exact_mod_cast hz0
        linarith
      nlinarith

/-- Advancing from a cell inside the grid cannot push the running
distance past the GPU cutoff `100`: some axis of a unit direction has
`deltaDist ≤ 2`, so the smallest side distance is at most `64`. -/
theorem advance_dist_le {α : Type} [LinearOrderedField α] {ro : Vec3 α}
    {stepX stepY stepZ : ℤ} {dX dY dZ : α} {s : DDA α}
    (hInv : DDAInv ro stepX stepY stepZ dX dY dZ s)
    (hsx : stepX = 1 ∨ stepX = -1) (hsy : stepY = 1 ∨ stepY = -1)
    (hsz : stepZ = 1 ∨ stepZ = -1)
    (hdX : 0 < dX) (hdY : 0 < dY) (hdZ : 0 < dZ)
    (hd2 : dX ≤ 2 ∨ dY ≤ 2 ∨ dZ ≤ 2)
    (hro : 0 ≤ ro.x ∧ ro.x < 32 ∧ 0 ≤ ro.y ∧ ro.y < 32 ∧ 0 ≤ ro.z ∧ ro.z < 32)
    (hin : ¬(s.x < 0 ∨ s.x ≥ 32 ∨ s.y < 0 ∨ s.y ≥ 32 ∨ s.z < 0 ∨ s.z ≥ 32)) :
    ¬((cpuAdvance stepX stepY stepZ dX dY dZ s).dist > 100) := by
  obtain ⟨hbX, hbY, hbZ⟩ := sides_le_inside hInv hsx hsy hsz hdX hdY hdZ hro hin
  obtain ⟨hlX, hlY, hlZ⟩ := cpuAdvance_dist_le stepX stepY stepZ dX dY dZ s
  rcases hd2 with h | h | h
  · push_neg
    calc (cpuAdvance stepX stepY stepZ dX dY dZ s).dist ≤ s.sX := hlX
    _ ≤ 32 * dX := hbX
    _ ≤ 100 := by nlinarith
  · push_neg
    calc (cpuAdvance stepX stepY stepZ dX dY dZ s).dist ≤ s.sY := hlY
    _ ≤ 32 * dY := hbY
    _ ≤ 100 := by nlinarith
  · push_neg
    calc (cpuAdvance stepX stepY stepZ dX dY dZ s).dist ≤ s.sZ := hlZ
    _ ≤ 32 * dZ := hbZ
    _ ≤ 100 := by nlinarith

/-- Once the walk is outside the grid it stays outside: the coordinate
that escaped keeps moving away from the grid (or stands still). -/
theorem outside_absorb {α : Type} [LinearOrderedField α] {ro : Vec3 α}
    {stepX stepY stepZ : ℤ} {dX dY dZ : α} {s : DDA α}
    (hInv : DDAInv ro stepX stepY stepZ dX dY dZ s)
    (hsx : stepX = 1 ∨ stepX = -1) (hsy : stepY = 1 ∨ stepY = -1)
    (hsz : stepZ = 1 ∨ stepZ = -1)
    (hout : s.x < 0 ∨ s.x ≥ 32 ∨ s.y < 0 ∨ s.y ≥ 32 ∨ s.z < 0 ∨ s.z ≥ 32) :
    (cpuAdvance stepX stepY stepZ dX dY dZ s).x < 0 ∨
    (cpuAdvance stepX stepY stepZ dX dY dZ s).x ≥ 32 ∨
    (cpuAdvance stepX stepY stepZ dX dY dZ s).y < 0 ∨
    (cpuAdvance stepX stepY stepZ dX dY dZ s).y ≥ 32 ∨
    (cpuAdvance stepX stepY stepZ dX dY dZ s).z < 0 ∨
    (cpuAdvance stepX stepY stepZ dX dY dZ s).z ≥ 32 := by
  obtain ⟨hcx, hcy, hcz⟩ := cpuAdvance_coords stepX stepY stepZ dX dY dZ s
  rcases hout with h | h | h | h | h | h
  · -- s.x < 0 forces stepX = -1 (else the invariant gives 0 ≤ s.x)
    have hstep : stepX = -1 := by
      rcases hsx with h1 | h1
      · exact absurd (hInv.invx1 h1).1 (by omega)
      · exact h1
    exact Or.inl (by rcases hcx with hc | hc <;> omega)
  · have hstep : stepX = 1 := by
      rcases hsx with h1 | h1
      · exact h1
      · exact absurd (hInv.invx2 h1).1 (by omega)
    exact Or.inr (Or.inl (by rcases hcx with hc | hc <;> omega))
  · have hstep : stepY = -1 := by
      rcases hsy with h1 | h1
      · exact absurd (hInv.invy1 h1).1 (by omega)
      · exact h1
    exact Or.inr (Or.inr (Or.inl (by rcases hcy with hc | hc <;> omega)))
  · have hstep : stepY = 1 := by
      rcases hsy with h1 | h1
      · exact h1
      · exact absurd (hInv.invy2 h1).1 (by omega)
    exact Or.inr (Or.inr (Or.inr (Or.inl (by rcases hcy with hc | hc <;> omega))))
  · have hstep : stepZ = -1 := by
      rcases hsz with h1 | h1
      · exact absurd (hInv.invz1 h1).1 (by omega)
      · exact h1
    exact Or.inr (Or.inr (Or.inr (Or.inr (Or.inl (by rcases hcz with hc | hc <;> omega)))))
  · have hstep : stepZ = 1 := by
      rcases hsz with h1 | h1
      · exact h1
      · exact absurd (hInv.invz2 h1).1 (by omega)
    exact Or.inr (Or.inr (Or.inr (Or.inr (Or.inr (by rcases hcz with hc | hc <;> omega)))))

/-- The GPU loop never hits from a state outside the grid (under the
walk invariant): no sample is taken outside, and the walk never
re-enters. -/
theorem gpuLoop_outside_none {α : Type} [LinearOrderedField α] [FloorRing α]
    (grid : ℤ → ℕ) {ro : Vec3 α} {stepX stepY stepZ : ℤ} {dX dY dZ : α}
    (hsx : stepX = 1 ∨ stepX = -1) (hsy : stepY = 1 ∨ stepY = -1)
    (hsz : stepZ = 1 ∨ stepZ = -1) :
    ∀ (n : ℕ) (s : DDA α), DDAInv ro stepX stepY stepZ dX dY dZ s →
      (s.x < 0 ∨ s.x ≥ 32 ∨ s.y < 0 ∨ s.y ≥ 32 ∨ s.z < 0 ∨ s.z ≥ 32) →
      gpuLoop grid stepX stepY stepZ dX dY dZ n s = none := by
  intro n
  induction n with
  | zero => intro s _ _; rfl
  | succ m ih =>
    intro s hInv hout
    unfold gpuLoop
    rw [if_pos hout]
    split_ifs with h100
    · rfl
    · dsimp only
      split_ifs with h2
      · rfl
      · exact ih _ (cpuAdvance_inv hInv) (outside_absorb hInv hsx hsy hsz hout)

/-- The CPU loop at an outside state past the `gridSize * 1.5` cutoff
stops with a miss. -/
theorem cpuLoop_outside_cut {α : Type} [LinearOrderedField α]
    (grid : ℤ → ℕ) (stepX stepY stepZ : ℤ) (dX dY dZ : α)
    (n : ℕ) (s : DDA α)
    (hout : s.x < 0 ∨ s.x ≥ 32 ∨ s.y < 0 ∨ s.y ≥ 32 ∨ s.z < 0 ∨ s.z ≥ 32)
    (hcut : s.dist > ((32 : ℤ) : α) * (3 / 2)) :
    cpuLoop grid 32 stepX stepY stepZ dX dY dZ n s = none := by
  cases n with
  | zero => rfl
  | succ m =>
    unfold cpuLoop
    rw [if_pos hout, if_pos hcut]

/-- The GLSL byte decode `int(val * 255.0 + 0.5)` of the normalised R8
texel recovers the stored byte exactly. -/
theorem floor_byte {α : Type} [LinearOrderedField α] [FloorRing α] (v : ℕ) :
    ⌊((v : ℕ) : α) / 255 * 255 + 1 / 2⌋ = (v : ℤ) := by
  rw [div_mul_cancel₀ ((v : ℕ) : α) (by norm_num : (255 : α) ≠ 0)]
  rw [show ((v : ℕ) : α) = (((v : ℕ) : ℤ) : α) by push_cast; ring]
  rw [add_comm, Int.floor_add_int]
  rw [show ⌊(1 : α) / 2⌋ = 0 from Int.floor_eq_zero_iff.mpr (by constructor <;> norm_num)]
  omega

/-- Lockstep equivalence of the two loops from any invariant state, at
equal fuel: the GPU loop with budget `n` returns exactly the CPU loop's
result (hit `pos`/`normal`/`id`/`t` all agree, misses agree). -/
theorem loop_eq {α : Type} [LinearOrderedField α] [FloorRing α]
    (grid : ℤ → ℕ) {ro : Vec3 α} {stepX stepY stepZ : ℤ} {dX dY dZ : α}
    (hsx : stepX = 1 ∨ stepX = -1) (hsy : stepY = 1 ∨ stepY = -1)
    (hsz : stepZ = 1 ∨ stepZ = -1)
    (hdX : 0 < dX) (hdY : 0 < dY) (hdZ : 0 < dZ)
    (hd2 : dX ≤ 2 ∨ dY ≤ 2 ∨ dZ ≤ 2)
    (hro : 0 ≤ ro.x ∧ ro.x < 32 ∧ 0 ≤ ro.y ∧ ro.y < 32 ∧ 0 ≤ ro.z ∧ ro.z < 32) :
    ∀ (n : ℕ) (s : DDA α), DDAInv ro stepX stepY stepZ dX dY dZ s →
      gpuLoop grid stepX stepY stepZ dX dY dZ n s =
        (cpuLoop grid 32 stepX stepY stepZ dX dY dZ n s).map
          (fun h => ⟨h.t, h.normal, (h.voxelId : ℤ), h.pos⟩) := by
  intro n
  induction n with
  | zero => intro s _; rfl
  | succ m ih =>
    intro s hInv
    unfold gpuLoop cpuLoop
    by_cases hout : s.x < 0 ∨ s.x ≥ 32 ∨ s.y < 0 ∨ s.y ≥ 32 ∨ s.z < 0 ∨ s.z ≥ 32
    · rw [if_pos hout, if_pos hout]
      by_cases h100 : s.dist > 100
      · rw [if_pos h100,
          if_pos (show s.dist > ((32 : ℤ) : α) * (3 / 2) by push_cast; linarith)]
        rfl
      · rw [if_neg h100]
        dsimp only
        by_cases h48 : s.dist > ((32 : ℤ) : α) * (3 / 2)
        · rw [if_pos h48]
          split_ifs with h2
          · rfl
          · have hnone : gpuLoop grid stepX stepY stepZ dX dY dZ m
                (gpuAdvance stepX stepY stepZ dX dY dZ s) = none :=
              gpuLoop_outside_none grid hsx hsy hsz m _ (cpuAdvance_inv hInv)
                (outside_absorb hInv hsx hsy hsz hout)
            rw [hnone]
            rfl
        · rw [if_neg h48]
          have habs := outside_absorb hInv hsx hsy hsz hout
          by_cases h2 : (gpuAdvance stepX stepY stepZ dX dY dZ s).dist > 100
          · rw [if_pos h2]
            have h2c : (cpuAdvance stepX stepY stepZ dX dY dZ s).dist > 100 := h2
            rw [cpuLoop_outside_cut grid stepX stepY stepZ dX dY dZ m _ habs
              (by push_cast; linarith)]
            rfl
          · rw [if_neg h2]
            exact ih _ (cpuAdvance_inv hInv)
    · rw [if_neg hout, if_neg hout]
      dsimp only
      rw [floor_byte (grid (s.x + s.y * 32 + s.z * 32 * 32))]
      by_cases hv : grid (s.x + s.y * 32 + s.z * 32 * 32) > 0
      · rw [if_pos (show ((grid (s.x + s.y * 32 + s.z * 32 * 32) : ℕ) : ℤ) > 0 by
            exact_mod_cast hv),
          if_pos hv]
        rfl
      · rw [if_neg (show ¬ ((grid (s.x + s.y * 32 + s.z * 32 * 32) : ℕ) : ℤ) > 0 by
            exact_mod_cast hv),
          if_neg hv]
        have hlt : ¬ ((gpuAdvance stepX stepY stepZ dX dY dZ s).dist > 100) :=
          advance_dist_le hInv hsx hsy hsz hdX hdY hdZ hd2 hro hout
        rw [if_neg hlt]
        exact ih _ (cpuAdvance_inv hInv)

/-- For a nonzero component, GLSL `sign` agrees with the CPU step choice
`rd > 0 ? 1 : -1`. -/
theorem axis_sgn {α : Type} [LinearOrderedField α] (r : α) (hr : r ≠ 0) :
    Shader.sign r = (if r > 0 then (1 : ℤ) else -1) := by
  unfold Shader.sign
  rcases lt_or_gt_of_ne hr with h | h
  · rw [if_neg (by linarith), if_pos h, if_neg (by linarith)]
  · rw [if_pos h, if_pos h]

/-- The step choice is `1` or `-1`. -/
theorem axis_step_cases {α : Type} [LinearOrderedField α] (r : α) :
    (if r > 0 then (1 : ℤ) else -1) = 1 ∨ (if r > 0 then (1 : ℤ) else -1) = -1 := by
  split_ifs
  · exact Or.inl rfl
  · exact Or.inr rfl

/-- GLSL `tDelta = 1.0 / abs(rd)` equals the CPU `Math.abs(1 / rd)`. -/
theorem axis_delta {α : Type} [LinearOrderedField α] (r : α) :
    (1 : α) / |r| = |1 / r| := by
  rw [abs_div, abs_one]

/-- The CPU deltaDist of a nonzero component is positive. -/
theorem axis_d_pos {α : Type} [LinearOrderedField α] (r : α) (hr : r ≠ 0) :
    0 < |1 / r| :=
  abs_pos.mpr (one_div_ne_zero hr)

/-- A direction component with square at least `1/3` has deltaDist at
most `2`. -/
theorem axis_d_le {α : Type} [LinearOrderedField α] (r : α) (_hr : r ≠ 0)
    (h3 : 1 / 3 ≤ r * r) : |1 / r| ≤ 2 := by
  have hrr : 0 < r * r := by positivity
  have hsq : |1 / r| * |1 / r| = 1 / (r * r) := by
    rw [← abs_mul, abs_of_nonneg (mul_self_nonneg (1 / r))]
    rw [div_mul_div_comm, one_mul]
  have hle : 1 / (r * r) ≤ 3 := by
    rw [div_le_iff₀ hrr]
    nlinarith
  nlinarith [abs_nonneg (1 / r), hsq]

/-- The GLSL initial `tMax` formula coincides with the CPU initial
sideDist formula for a nonzero component. -/
theorem axis_tmax {α : Type} [LinearOrderedField α] [FloorRing α] (r q : α) (hr : r ≠ 0) :
    ((((if r > 0 then (1 : ℤ) else -1) : ℤ) : α) * ((⌊q⌋ : α) - q + 1 / 2) + 1 / 2) * (1 / |r|) =
      (if r > 0 then (⌊q⌋ : α) + 1 - q else q - (⌊q⌋ : α)) * |1 / r| := by
  rw [axis_delta]
  rcases lt_or_gt_of_ne hr with h | h
  · rw [if_neg (by linarith), if_neg (by linarith)]
    push_cast
    ring
  · rw [if_pos h, if_pos h]
    push_cast
    ring

/-- Initial invariant of a positive-step axis: the start coordinate is
nonnegative and the initial sideDist is the distance to the upper
boundary. -/
theorem axis_init_pos {α : Type} [LinearOrderedField α] [FloorRing α]
    (r q : α) (h0 : 0 ≤ q) :
    (if r > 0 then (1 : ℤ) else -1) = 1 → 0 ≤ ⌊q⌋ ∧
      (if r > 0 then (⌊q⌋ : α) + 1 - q else q - (⌊q⌋ : α)) * |1 / r| =
        ((⌊q⌋ : α) + 1 - q) * |1 / r| := by
  intro hstep
  have hr : r > 0 := by
    by_contra hc
    rw [if_neg hc] at hstep
    exact absurd hstep (by omega)
  exact ⟨Int.le_floor.mpr (by exact_mod_cast h0), by rw [if_pos hr]⟩

/-- Initial invariant of a negative-step axis: the start coordinate is at
most 31 and the initial sideDist is the distance to the lower boundary. -/
theorem axis_init_neg {α : Type} [LinearOrderedField α] [FloorRing α]
    (r q : α) (h32 : q < 32) :
    (if r > 0 then (1 : ℤ) else -1) = -1 → ⌊q⌋ ≤ 31 ∧
      (if r > 0 then (⌊q⌋ : α) + 1 - q else q - (⌊q⌋ : α)) * |1 / r| =
        (q - (⌊q⌋ : α)) * |1 / r| := by
  intro hstep
  have hr : ¬ (r > 0) := by
    by_contra hc
    rw [if_pos hc] at hstep
    exact absurd hstep (by omega)
  have hfl : ⌊q⌋ < 32 := Int.floor_lt.mpr (by exact_mod_cast h32)
  exact ⟨by omega, by rw [if_neg hr]⟩

/-- One axis of a unit direction has squared component at least `1/3`. -/
theorem axis_third {α : Type} [LinearOrderedField α] {a b c : α}
    (hunit : a * a + b * b + c * c = 1) :
    1 / 3 ≤ a * a ∨ 1 / 3 ≤ b * b ∨ 1 / 3 ≤ c * c := by
  by_contra hcon
  push_neg at hcon
  obtain ⟨h1, h2, h3⟩ := hcon
  linarith

/-- C1 amended: with matching step budgets — the GPU shader compiled with
`MAX_STEPS = 64`, equal to the CPU's fixed `gridSize * 2` — a unit-length
ray direction with all components nonzero and an origin inside the grid
bounds make the GPU traversal return exactly the CPU result: the same
hit cell, normal, id and distance, or a miss on both sides. -/
theorem c1_voxel_parity {α : Type} [LinearOrderedField α] [FloorRing α]
    (ro rd : Vec3 α) (grid : ℤ → ℕ)
    (hx : rd.x ≠ 0) (hy : rd.y ≠ 0) (hz : rd.z ≠ 0)
    (hro : 0 ≤ ro.x ∧ ro.x < 32 ∧ 0 ≤ ro.y ∧ ro.y < 32 ∧ 0 ≤ ro.z ∧ ro.z < 32)
    (hunit : rd.x * rd.x + rd.y * rd.y + rd.z * rd.z = 1) :
    Shader.intersectVoxels ro rd grid 64 =
      (Math3D.intersectVoxels ro rd grid 32).map
        (fun h => ⟨h.t, h.normal, (h.voxelId : ℤ), h.pos⟩) := by
  obtain ⟨hrx0, hrx32, hry0, hry32, hrz0, hrz32⟩ := hro
  unfold Shader.intersectVoxels Math3D.intersectVoxels
  dsimp only
  rw [axis_sgn rd.x hx, axis_sgn rd.y hy, axis_sgn rd.z hz]
  rw [axis_tmax rd.x ro.x hx, axis_tmax rd.y ro.y hy, axis_tmax rd.z ro.z hz]
  rw [axis_delta rd.x, axis_delta rd.y, axis_delta rd.z]
  rw [show ((32 : ℤ) * 2).toNat = 64 from rfl]
  have hd2 : |1 / rd.x| ≤ 2 ∨ |1 / rd.y| ≤ 2 ∨ |1 / rd.z| ≤ 2 := by
    rcases axis_third hunit with h | h | h
    · exact Or.inl (axis_d_le rd.x hx h)
    · exact Or.inr (Or.inl (axis_d_le rd.y hy h))
    · exact Or.inr (Or.inr (axis_d_le rd.z hz h))
  refine loop_eq grid (axis_step_cases rd.x) (axis_step_cases rd.y) (axis_step_cases rd.z)
    (axis_d_pos rd.x hx) (axis_d_pos rd.y hy) (axis_d_pos rd.z hz) hd2
    ⟨hrx0, hrx32, hry0, hry32, hrz0, hrz32⟩ 64 _ ?_
  exact ⟨fun h => axis_init_pos rd.x ro.x hrx0 h,
    fun h => axis_init_neg rd.x ro.x hrx32 h,
    fun h => axis_init_pos rd.y ro.y hry0 h,
    fun h => axis_init_neg rd.y ro.y hry32 h,
    fun h => axis_init_pos rd.z ro.z hrz0 h,
    fun h => axis_init_neg rd.z ro.z hrz32 h⟩

/-- Grid holding voxel id 7 at cell `(31,31,31)` (flat index 32767). -/
def gridC1 : ℤ → ℕ := fun i => if i = 32767 then 7 else 0

set_option maxRecDepth 100000 in
/-- C1 counterexample: the budgets differ, so the claim fails as stated.
The ray from `(0.5, 0.5, 0.5)` along `(1,1,1)` (origin in bounds, all
components nonzero) needs 93 advancements to reach the only voxel, at
cell `(31,31,31)`.  The CPU traversal's fixed budget `gridSize * 2 = 64`
runs out inside the grid and reports a miss, while the GPU shader
compiled at the ULTRA preset (`MAX_STEPS = 1024`) reports the hit at
distance `30.5`. -/
theorem c1_counterexample :
    Math3D.intersectVoxels (α := ℚ) ⟨1 / 2, 1 / 2, 1 / 2⟩ ⟨1, 1, 1⟩ gridC1 32 = none ∧
    Shader.intersectVoxels (α := ℚ) ⟨1 / 2, 1 / 2, 1 / 2⟩ ⟨1, 1, 1⟩ gridC1 1024 =
      some ⟨61 / 2, ⟨-1, 0, 0⟩, 7, ⟨31, 31, 31⟩⟩ := by
  constructor
  · with_unfolding_all rfl
  · with_unfolding_all rfl

set_option maxRecDepth 40000 in
/-- Witness for C1 at a concrete rational unit direction
`(2/3, 2/3, 1/3)` from `(0.5, 0.5, 0.5)` against the `gridTie` scene
(both sides hit cell `(0,1,0)` at distance `3/4`). -/
theorem c1_voxel_parity_witness :
    ((2 : ℚ) / 3 * (2 / 3) + 2 / 3 * (2 / 3) + 1 / 3 * (1 / 3) = 1) ∧
    Shader.intersectVoxels (α := ℚ) ⟨1 / 2, 1 / 2, 1 / 2⟩ ⟨2 / 3, 2 / 3, 1 / 3⟩ gridTie 64 =
      (Math3D.intersectVoxels (α := ℚ) ⟨1 / 2, 1 / 2, 1 / 2⟩ ⟨2 / 3, 2 / 3, 1 / 3⟩
          gridTie 32).map
        (fun h => ⟨h.t, h.normal, (h.voxelId : ℤ), h.pos⟩) :=
  ⟨by norm_num,
    c1_voxel_parity ⟨1 / 2, 1 / 2, 1 / 2⟩ ⟨2 / 3, 2 / 3, 1 / 3⟩ gridTie
      (by norm_num) (by norm_num) (by norm_num)
      (by norm_num) (by norm_num)⟩
